import Mathlib

/-!
Verification development for the ackee-tracker client
(`src/scripts/main.js`), a client-side visit-tracking beacon.

JavaScript strings are embedded as `List Char`; machine behaviour of the
record lifecycle manager (the closures `_record` / `_updateRecord` returned
by `create`, with their `setInterval` heartbeat loops and `stop` flags) is
embedded as a small-step event machine: the synchronous part of each entry
point produces an initial `SessionState`, and the event-loop callbacks
(`stop()`, arrival of the creation response, an interval tick, arrival of a
refresh response) are the transitions.  Disabled events (for example a tick
while no interval is active) leave the state unchanged, matching an event
that the host environment never delivers.
-/

/-- JavaScript strings, embedded as lists of characters. -/
abbrev JsString := List Char

/-- Conversion from Lean string literals to the embedding. -/
def jstr (s : String) : JsString := s.data

/-- Embedding of `validate`'s input: a JS options object whose two relevant
properties may each be absent (`none`), `true` or `false`.  Non-boolean
values behave, for each strict comparison in `validate`, like the absent
value, so they are conflated with `none`. -/
structure Options where
  detailed : Option Bool := none
  ignoreLocalhost : Option Bool := none
deriving DecidableEq, Repr

/-- The validated configuration object (`_opts` in `validate`). -/
structure Config where
  detailed : Bool
  ignoreLocalhost : Bool
deriving DecidableEq, Repr

/-- Source `validate(opts)`: `detailed` is `opts.detailed === true`,
`ignoreLocalhost` is `opts.ignoreLocalhost !== false`.  The source builds a
fresh object, so the result is an independent immutable value. -/
def validate (opts : Options) : Config :=
  { detailed := opts.detailed == some true
    ignoreLocalhost := !(opts.ignoreLocalhost == some false) }

/-- Source `isLocalhost(hostname)`. -/
def isLocalhost (hostname : JsString) : Bool :=
  hostname == jstr "" || hostname == jstr "localhost" ||
    hostname == jstr "127.0.0.1" || hostname == jstr "::1"

/-- Tests whether `p` matches at the start of `s` (character-exact). -/
def startsWithSeq : JsString → JsString → Bool
  | [], _ => true
  | _ :: _, [] => false
  | p :: ps, c :: cs => p == c && startsWithSeq ps cs

/-- Tests whether `p` occurs contiguously somewhere inside `s`. -/
def containsSeq (p : JsString) : JsString → Bool
  | [] => startsWithSeq p []
  | c :: cs => startsWithSeq p (c :: cs) || containsSeq p cs

/-- Source `isBot(userAgent)`: the regular expression
`/bot|crawler|spider|crawling/i` tested against the user agent.  The four
alternatives are lower-case ASCII words, so the case-insensitive test is a
substring search over the lower-cased string. -/
def isBot (userAgent : JsString) : Bool :=
  let low := userAgent.map Char.toLower
  containsSeq (jstr "bot") low || containsSeq (jstr "crawler") low ||
    containsSeq (jstr "spider") low || containsSeq (jstr "crawling") low

/-- Source `isFakeRecordId(recordId)`. -/
def isFakeRecordId (recordId : JsString) : Bool :=
  recordId == jstr "88888888-8888-8888-8888-888888888888"

/-- Source `endpoint(server)`: appends `'/'` unless the final character already is
one, then appends `"api"`.  (`server.substr(-1)` is the last character, or
`""` for the empty string.) -/
def endpoint (server : JsString) : JsString :=
  let hasTrailingSlash := server.getLast? == some '/'
  server ++ (if hasTrailingSlash then [] else ['/']) ++ jstr "api"

/-!
## Transport (`send` and the request bodies)

`createRecordBody` / `updateRecordBody` build GraphQL documents; `send`
opens a POST `XMLHttpRequest` with credentials and a JSON content type, and
its `onload` handler either throws (non-200 status, unparseable body,
non-null `errors` member) or invokes the continuation `next(json)`.
-/

/-- Attributes transferred to the server, as an opaque JS object (ordered
key/value pairs); `send` and the lifecycle manager never inspect them. -/
abbrev Attrs := List (JsString × JsString)

/-- The `variables` member of a GraphQL request body. -/
inductive GraphQLVars where
  | createVars (domainId : JsString) (input : Attrs)
  | updateVars (id : JsString)
deriving DecidableEq, Repr

/-- A GraphQL request body; the source names the second member
`variables`, a reserved word here. -/
structure GraphQLBody where
  query : JsString
  vars : GraphQLVars
deriving DecidableEq, Repr

/-- The mutation text of `createRecordBody` (source whitespace collapsed). -/
def createRecordQuery : JsString :=
  jstr "mutation createRecord($domainId: ID!, $input: CreateRecordInput!) \x7b createRecord(domainId: $domainId, input: $input) \x7b payload \x7b id \x7d \x7d \x7d"

/-- The mutation text of `updateRecordBody` (source whitespace collapsed). -/
def updateRecordQuery : JsString :=
  jstr "mutation updateRecord($id: ID!) \x7b updateRecord(id: $id) \x7b success \x7d \x7d"

/-- Source `createRecordBody(domainId, attrs)`. -/
def createRecordBody (domainId : JsString) (attrs : Attrs) : GraphQLBody :=
  { query := createRecordQuery, vars := .createVars domainId attrs }

/-- Source `updateRecordBody(recordId)`. -/
def updateRecordBody (recordId : JsString) : GraphQLBody :=
  { query := updateRecordQuery, vars := .updateVars recordId }

/-- The outbound request `send` configures on its `XMLHttpRequest`. -/
structure HttpRequest where
  method : JsString
  url : JsString
  contentType : JsString
  withCredentials : Bool
  body : GraphQLBody
deriving DecidableEq, Repr

/-- Request-side effect of `send(url, body, next)`: `xhr.open('POST', url)`,
the JSON content-type header, `xhr.withCredentials = true`, and the
serialized body. -/
def sendRequest (url : JsString) (body : GraphQLBody) : HttpRequest :=
  { method := jstr "POST"
    url := url
    contentType := jstr "application/json;charset=UTF-8"
    withCredentials := true
    body := body }

/-- One entry of a parsed response's `errors` array. -/
structure JsonError where
  message : JsString
deriving DecidableEq, Repr

/-- A parsed response document.  `errors` is `none` when the member is
`null` or absent; `payload` abstracts the `data` member, which `send`
itself never inspects. -/
structure Json where
  errors : Option (List JsonError)
  payload : Option JsString
deriving DecidableEq, Repr

/-- The body text of a response: either `JSON.parse` fails on it, or it
parses to a document. -/
inductive ResponseText where
  | unparseable
  | parsed (json : Json)
deriving DecidableEq, Repr

/-- What `xhr` presents to the `onload` handler. -/
structure XhrResponse where
  status : Nat
  text : ResponseText
deriving DecidableEq, Repr

/-- The errors `send`'s `onload` handler can throw. -/
inductive SendError where
  /-- Thrown as `'Server returned with an unhandled status'`. -/
  | badStatus (status : Nat)
  /-- Thrown as `'Failed to parse response from server'`. -/
  | parseFailure
  /-- Thrown as `new Error(json.errors[0].message)`; `none` records the degenerate
  empty-array case, where member access on `undefined` throws instead. -/
  | serverError (firstMessage : Option JsString)
deriving DecidableEq, Repr

/-- Response-side effect of `send`: its `onload` handler.  Throws on a
non-200 status, an unparseable body, or a non-null `errors` member;
otherwise hands the document to the continuation. -/
def sendOnload (resp : XhrResponse) : Except SendError Json :=
  if resp.status ≠ 200 then
    .error (.badStatus resp.status)
  else
    match resp.text with
    | .unparseable => .error .parseFailure
    | .parsed json =>
      match json.errors with
      | some es => .error (.serverError ((es.map (·.message)).head?))
      | none => .ok json

/-- The arguments with which `send`'s continuation `next` runs for a given
response: exactly one call on success, none when the handler throws. -/
def sendNextCalls (resp : XhrResponse) : List Json :=
  match sendOnload resp with
  | .ok json => [json]
  | .error _ => []

/-!
## The record lifecycle manager (`create` and its closures)

`create({server, domainId}, opts)` validates `opts` and returns an instance
whose `record` (`_record`) and `updateRecord` (`_updateRecord`) closures
manage one tracking session each.  A session's mutable state — the
`isStopped` flag, the live interval, the in-flight requests and the
observable effects (dispatched requests, warnings, callback invocations) —
is collected in `SessionState`; the entry points build the initial state
and the event-loop callbacks are steps of `step`.
-/

/-- Environment facts the entry points read (`location.hostname`,
`navigator.userAgent`). -/
structure Env where
  hostname : JsString
  userAgent : JsString
deriving DecidableEq, Repr

/-- State of one tracking session, together with its observable history.
`timers` counts the live (not yet cleared) intervals created by
`setInterval`; `pendingCreate` records that the creation request was
dispatched and its response not yet delivered; `inFlight` counts refresh
requests whose responses are still pending; `recordId` is the identifier
the refresh loop is bound to. -/
structure SessionState where
  isStopped : Bool
  timers : Nat
  pendingCreate : Bool
  inFlight : Nat
  recordId : Option JsString
  requests : List HttpRequest
  warnings : List JsString
  onCreateCalls : List JsString
  onUpdateCalls : List JsString
deriving DecidableEq, Repr

/-- The state with no activity and no history. -/
def SessionState.idle : SessionState :=
  { isStopped := false, timers := 0, pendingCreate := false, inFlight := 0
    recordId := none, requests := [], warnings := [], onCreateCalls := []
    onUpdateCalls := [] }

/-- Warning `'Ackee ignores you because you are on localhost'`. -/
def warnLocalhost : JsString :=
  jstr "Ackee ignores you because you are on localhost"

/-- Warning `'Ackee ignores you because you are a bot'`. -/
def warnBot : JsString :=
  jstr "Ackee ignores you because you are a bot"

/-- Warning `'Ackee ignores you because this is your own site'`. -/
def warnOwnSite : JsString :=
  jstr "Ackee ignores you because this is your own site"

/-- Synchronous part of `_record(attrs, callbacks)`: the eligibility
checks, and on success the dispatch of the creation request through
`record(server, domainId, attrs, ...)` = `send(endpoint(server),
createRecordBody(domainId, attrs), ...)`.  The returned handle's `stop()`
is the `Event.stop` step below. -/
def recordInit (opts : Config) (env : Env) (server domainId : JsString)
    (attrs : Attrs) : SessionState :=
  if opts.ignoreLocalhost && isLocalhost env.hostname then
    { SessionState.idle with warnings := [warnLocalhost] }
  else if isBot env.userAgent then
    { SessionState.idle with warnings := [warnBot] }
  else
    { SessionState.idle with
        pendingCreate := true
        requests := [sendRequest (endpoint server) (createRecordBody domainId attrs)] }

/-- Synchronous part of `_updateRecord(recordId, callbacks)`: the
eligibility and fake-identifier checks, and on success the immediate
`setInterval` binding the refresh loop to the supplied identifier. -/
def updateRecordInit (opts : Config) (env : Env) (recordId : JsString) :
    SessionState :=
  if opts.ignoreLocalhost && isLocalhost env.hostname then
    { SessionState.idle with warnings := [warnLocalhost] }
  else if isBot env.userAgent then
    { SessionState.idle with warnings := [warnBot] }
  else if isFakeRecordId recordId then
    { SessionState.idle with warnings := [warnOwnSite] }
  else
    { SessionState.idle with timers := 1, recordId := some recordId }

/-- The event-loop callbacks that can run against a session. -/
inductive Event where
  /-- The caller invokes the handle's `stop()`. -/
  | stop
  /-- The creation round trip completes and `record`'s continuation runs
  with `json.data.createRecord.payload.id = recordId`. -/
  | createResponse (recordId : JsString)
  /-- The interval fires: one refresh period (15000 ms) elapsed. -/
  | tick
  /-- A refresh round trip completes and `updateRecord`'s continuation
  runs. -/
  | updateResponse
deriving DecidableEq, Repr

/-- One event-loop step of a session.  An event whose callback is not
installed in `s` (a creation response while none is pending, a tick with no
live interval, a refresh response with none in flight) leaves the state
unchanged: the event loop never delivers it. -/
def step (server : JsString) (s : SessionState) : Event → SessionState
  | .stop => { s with isStopped := true }
  | .createResponse recordId =>
    if s.pendingCreate then
      if isFakeRecordId recordId then
        { s with pendingCreate := false, warnings := s.warnings ++ [warnOwnSite] }
      else
        { s with pendingCreate := false
                 onCreateCalls := s.onCreateCalls ++ [recordId]
                 timers := s.timers + 1
                 recordId := some recordId }
    else s
  | .tick =>
    if s.timers = 0 then s
    else if s.isStopped then { s with timers := s.timers - 1 }
    else
      match s.recordId with
      | some recordId =>
        { s with inFlight := s.inFlight + 1
                 requests := s.requests ++
                   [sendRequest (endpoint server) (updateRecordBody recordId)] }
      | none => s
  | .updateResponse =>
    if s.inFlight = 0 then s
    else
      match s.recordId with
      | some recordId =>
        { s with inFlight := s.inFlight - 1
                 onUpdateCalls := s.onUpdateCalls ++ [recordId] }
      | none => s

/-- Runs a sequence of event-loop callbacks against a session. -/
def run (server : JsString) (s : SessionState) : List Event → SessionState
  | [] => s
  | e :: es => run server (step server s e) es

/-- A request is a refresh (`updateRecord`) request when its body carries
`updateRecord` variables. -/
def HttpRequest.isRefresh (r : HttpRequest) : Bool :=
  match r.body.vars with
  | .updateVars _ => true
  | .createVars _ _ => false

/-!
## General lemmas about the event machine
-/

/-- Running a concatenation of event lists is running them in sequence. -/
theorem run_append (server : JsString) (es₁ es₂ : List Event) : ∀ s : SessionState,
    run server s (es₁ ++ es₂) = run server (run server s es₁) es₂ := by
  induction es₁ with
  | nil => intro s; rfl
  | cons e es ih => intro s; simpa [run] using ih (step server s e)

/-- No step clears the `isStopped` flag. -/
theorem step_isStopped_mono (server : JsString) (s : SessionState) (e : Event)
    (h : s.isStopped = true) : (step server s e).isStopped = true := by
  cases e <;> simp only [step] <;> repeat' split <;> simp_all

/-- Once `stop()` ran, the flag stays set for the rest of the execution. -/
theorem run_isStopped_mono (server : JsString) (es : List Event) :
    ∀ s : SessionState, s.isStopped = true → (run server s es).isStopped = true := by
  induction es with
  | nil => intro s h; exact h
  | cons e es ih => intro s h; exact ih _ (step_isStopped_mono server s e h)

/-- Only a tick can dispatch a request: every other callback leaves the
request history unchanged. -/
theorem step_requests_of_ne_tick (server : JsString) (s : SessionState) (e : Event)
    (h : e ≠ Event.tick) : (step server s e).requests = s.requests := by
  cases e <;> simp only [step] <;> repeat' split <;> simp_all

/-- A tick that fires after `stop()` dispatches nothing. -/
theorem step_tick_requests_of_stopped (server : JsString) (s : SessionState)
    (h : s.isStopped = true) : (step server s Event.tick).requests = s.requests := by
  simp only [step]
  repeat' split <;> simp_all

/-- After `stop()` ran, no further request is ever dispatched. -/
theorem run_requests_of_stopped (server : JsString) (es : List Event) :
    ∀ s : SessionState, s.isStopped = true →
      (run server s es).requests = s.requests := by
  induction es with
  | nil => intro s _; rfl
  | cons e es ih =>
    intro s h
    have hmono := step_isStopped_mono server s e h
    have heq : (step server s e).requests = s.requests := by
      cases e with
      | tick => exact step_tick_requests_of_stopped server s h
      | stop => exact step_requests_of_ne_tick server s _ (by simp)
      | createResponse rid => exact step_requests_of_ne_tick server s _ (by simp)
      | updateResponse => exact step_requests_of_ne_tick server s _ (by simp)
    rw [run, ih _ hmono, heq]

/-- Before the first tick, the request history is exactly what the entry
point itself dispatched. -/
theorem run_requests_of_no_tick (server : JsString) (es : List Event) :
    ∀ s : SessionState, Event.tick ∉ es →
      (run server s es).requests = s.requests := by
  induction es with
  | nil => intro s _; rfl
  | cons e es ih =>
    intro s h
    have he : e ≠ Event.tick := fun hc => h (hc ▸ List.mem_cons_self e es)
    have hes : Event.tick ∉ es := fun hc => h (List.mem_cons_of_mem e hc)
    rw [run, ih _ hes, step_requests_of_ne_tick server s e he]

/-- An inert session (no pending creation, no live interval, nothing in
flight) never changes anything observable again: every later callback is a
stutter, except that `stop()` may set the flag. -/
theorem run_inert (server : JsString) (es : List Event) :
    ∀ s : SessionState, s.pendingCreate = false → s.timers = 0 → s.inFlight = 0 →
      (run server s es).requests = s.requests
      ∧ (run server s es).warnings = s.warnings
      ∧ (run server s es).onCreateCalls = s.onCreateCalls
      ∧ (run server s es).onUpdateCalls = s.onUpdateCalls
      ∧ (run server s es).timers = 0
      ∧ (run server s es).pendingCreate = false
      ∧ (run server s es).inFlight = 0 := by
  induction es with
  | nil => intro s h₁ h₂ h₃; exact ⟨rfl, rfl, rfl, rfl, h₂, h₁, h₃⟩
  | cons e es ih =>
    intro s h₁ h₂ h₃
    have hstep : (step server s e).requests = s.requests
        ∧ (step server s e).warnings = s.warnings
        ∧ (step server s e).onCreateCalls = s.onCreateCalls
        ∧ (step server s e).onUpdateCalls = s.onUpdateCalls
        ∧ (step server s e).timers = 0
        ∧ (step server s e).pendingCreate = false
        ∧ (step server s e).inFlight = 0 := by
      cases e <;> simp only [step] <;> (repeat' split) <;> simp_all
    obtain ⟨r₁, r₂, r₃, r₄, r₅, r₆, r₇⟩ := hstep
    have := ih (step server s e) r₆ r₅ r₇
    rw [run]
    simp_all

/-- When every creation response delivered in `es` carries the sentinel
identifier, a session that has no interval, nothing in flight and no bound
identifier never acquires any of them: no timer is ever installed, no
callback ever runs, and no further request is dispatched. -/
theorem run_fake (server : JsString) (es : List Event) :
    ∀ s : SessionState,
      (∀ rid, Event.createResponse rid ∈ es → isFakeRecordId rid = true) →
      s.timers = 0 → s.inFlight = 0 → s.recordId = none →
      (run server s es).timers = 0
      ∧ (run server s es).inFlight = 0
      ∧ (run server s es).recordId = none
      ∧ (run server s es).onCreateCalls = s.onCreateCalls
      ∧ (run server s es).onUpdateCalls = s.onUpdateCalls
      ∧ (run server s es).requests = s.requests := by
  induction es with
  | nil => intro s _ h₁ h₂ h₃; exact ⟨h₁, h₂, h₃, rfl, rfl, rfl⟩
  | cons e es ih =>
    intro s hfake h₁ h₂ h₃
    have hstep : (step server s e).timers = 0
        ∧ (step server s e).inFlight = 0
        ∧ (step server s e).recordId = none
        ∧ (step server s e).onCreateCalls = s.onCreateCalls
        ∧ (step server s e).onUpdateCalls = s.onUpdateCalls
        ∧ (step server s e).requests = s.requests := by
      cases e with
      | createResponse rid =>
        have hf : isFakeRecordId rid = true :=
          hfake rid (List.mem_cons_self _ _)
        simp only [step]
        (repeat' split) <;> simp_all
      | _ =>
        simp only [step]
        (repeat' split) <;> simp_all
    obtain ⟨r₁, r₂, r₃, r₄, r₅, r₆⟩ := hstep
    have hfake' : ∀ rid, Event.createResponse rid ∈ es → isFakeRecordId rid = true :=
      fun rid h => hfake rid (List.mem_cons_of_mem e h)
    have := ih (step server s e) hfake' r₁ r₂ r₃
    rw [run]
    simp_all

/-- Every step preserves the timer bound: at most one live interval, and
none while the creation round trip is still pending. -/
theorem step_timers_le (server : JsString) (s : SessionState) (e : Event)
    (hle : s.timers ≤ 1) (hp : s.pendingCreate = true → s.timers = 0) :
    (step server s e).timers ≤ 1
    ∧ ((step server s e).pendingCreate = true → (step server s e).timers = 0) := by
  cases e <;> simp only [step] <;> (repeat' split) <;> simp_all

/-- The timer bound holds along every execution. -/
theorem run_timers_le (server : JsString) (es : List Event) :
    ∀ s : SessionState, s.timers ≤ 1 → (s.pendingCreate = true → s.timers = 0) →
      (run server s es).timers ≤ 1
      ∧ ((run server s es).pendingCreate = true → (run server s es).timers = 0) := by
  induction es with
  | nil => intro s hle hp; exact ⟨hle, hp⟩
  | cons e es ih =>
    intro s hle hp
    obtain ⟨h₁, h₂⟩ := step_timers_le server s e hle hp
    exact ih (step server s e) h₁ h₂

/-- Warnings are never retracted: a warning present now is present in every
later state. -/
theorem run_warn_mem (server : JsString) (es : List Event) :
    ∀ s : SessionState, ∀ w ∈ s.warnings, w ∈ (run server s es).warnings := by
  induction es with
  | nil => intro s w hw; exact hw
  | cons e es ih =>
    intro s w hw
    refine ih (step server s e) w ?_
    cases e <;> simp only [step] <;> (repeat' split) <;> simp_all

/-- While the creation round trip is pending, delivering a sentinel
creation response leaves the own-site warning in every later state. -/
theorem run_ownsite_warn (server : JsString) (es : List Event) :
    ∀ s : SessionState, s.pendingCreate = true →
      (∀ rid, Event.createResponse rid ∈ es → isFakeRecordId rid = true) →
      (∃ rid, Event.createResponse rid ∈ es) →
      warnOwnSite ∈ (run server s es).warnings := by
  induction es with
  | nil => intro s _ _ hex; obtain ⟨rid, hrid⟩ := hex; simp at hrid
  | cons e es ih =>
    intro s hp hfake hex
    cases e with
    | createResponse rid =>
      have hf : isFakeRecordId rid = true := hfake rid (List.mem_cons_self _ _)
      have hstep : step server s (Event.createResponse rid) =
          { s with pendingCreate := false, warnings := s.warnings ++ [warnOwnSite] } := by
        simp only [step, hp, hf, if_true]
      rw [run, hstep]
      exact run_warn_mem server es _ warnOwnSite (by simp)
    | stop =>
      obtain ⟨rid, hrid⟩ := hex
      have hrid' : Event.createResponse rid ∈ es := by simpa using hrid
      exact ih _ hp (fun r h => hfake r (List.mem_cons_of_mem _ h)) ⟨rid, hrid'⟩
    | tick =>
      obtain ⟨rid, hrid⟩ := hex
      have hrid' : Event.createResponse rid ∈ es := by simpa using hrid
      have hp' : (step server s Event.tick).pendingCreate = true := by
        simp only [step]
        (repeat' split) <;> simp_all
      exact ih _ hp' (fun r h => hfake r (List.mem_cons_of_mem _ h)) ⟨rid, hrid'⟩
    | updateResponse =>
      obtain ⟨rid, hrid⟩ := hex
      have hrid' : Event.createResponse rid ∈ es := by simpa using hrid
      have hp' : (step server s Event.updateResponse).pendingCreate = true := by
        simp only [step]
        (repeat' split) <;> simp_all
      exact ih _ hp' (fun r h => hfake r (List.mem_cons_of_mem _ h)) ⟨rid, hrid'⟩

/-!
## Substring-search correctness
-/

/-- Correctness of the prefix test. -/
theorem startsWithSeq_iff (p : JsString) : ∀ s : JsString,
    startsWithSeq p s = true ↔ ∃ r, s = p ++ r := by
  induction p with
  | nil => intro s; simp [startsWithSeq]
  | cons p ps ih =>
    intro s
    cases s with
    | nil => simp [startsWithSeq]
    | cons c cs =>
      simp only [startsWithSeq, Bool.and_eq_true, beq_iff_eq, ih, List.cons_append,
        List.cons_eq_cons]
      constructor
      · rintro ⟨h, r, hr⟩; exact ⟨r, h.symm, hr⟩
      · rintro ⟨r, h, hr⟩; exact ⟨h.symm, r, hr⟩

/-- Correctness of the substring test: it decides the existence of a
decomposition around the pattern. -/
theorem containsSeq_iff (p : JsString) : ∀ s : JsString,
    containsSeq p s = true ↔ ∃ l r, s = l ++ p ++ r := by
  intro s
  induction s with
  | nil =>
    simp only [containsSeq, startsWithSeq_iff]
    constructor
    · rintro ⟨r, hr⟩; exact ⟨[], r, by simpa using hr⟩
    · rintro ⟨l, r, hr⟩
      rw [List.nil_eq, List.append_eq_nil, List.append_eq_nil] at hr
      exact ⟨[], by simp [hr.1.2, hr.2]⟩
  | cons c cs ih =>
    simp only [containsSeq, Bool.or_eq_true, startsWithSeq_iff, ih]
    constructor
    · rintro (⟨r, hr⟩ | ⟨l, r, hr⟩)
      · exact ⟨[], r, by simpa using hr⟩
      · exact ⟨c :: l, r, by simp [hr]⟩
    · rintro ⟨l, r, hr⟩
      cases l with
      | nil => exact Or.inl ⟨r, by simpa using hr⟩
      | cons a l' =>
        have h : c = a ∧ cs = l' ++ p ++ r := by
          simpa [List.cons_eq_cons] using hr
        exact Or.inr ⟨l', r, h.2⟩

/-!
## Claim theorems: pure helpers
-/

/-- C5: for every hostname string `h`, `isLocalhost h` returns true if and
only if `h` is one of `""`, `"localhost"`, `"127.0.0.1"`, `"::1"`, and
false for every other string. -/
theorem isLocalhost_characterization (h : JsString) :
    isLocalhost h = true ↔
      h = jstr "" ∨ h = jstr "localhost" ∨ h = jstr "127.0.0.1" ∨ h = jstr "::1" := by
  simp [isLocalhost, or_assoc]

/-- C5 witness: the characterization evaluated at `"localhost"`. -/
theorem isLocalhost_characterization_witness : isLocalhost (jstr "localhost") = true :=
  (isLocalhost_characterization (jstr "localhost")).mpr (by simp)

/-- C6: `isBot u` returns true exactly when `u` case-insensitively contains
one of the substrings `bot`, `crawler`, `spider`, `crawling` (that is, the
lower-cased string has a contiguous decomposition around one of these
words), and it returns false on a typical desktop browser string. -/
theorem isBot_characterization :
    (∀ u : JsString, isBot u = true ↔
      ∃ w ∈ [jstr "bot", jstr "crawler", jstr "spider", jstr "crawling"],
        ∃ l r, u.map Char.toLower = l ++ w ++ r)
    ∧ isBot (jstr "Mozilla/5.0 (Windows NT 10.0; Win64; x64) AppleWebKit/537.36") = false
    ∧ isBot (jstr "Googlebot/2.1 (+http://www.google.com/bot.html)") = true := by
  refine ⟨fun u => ?_, by decide, by decide⟩
  simp only [isBot, Bool.or_eq_true, containsSeq_iff, List.mem_cons,
    List.not_mem_nil, or_false, exists_eq_or_imp, exists_eq_left, or_assoc]

/-- C6 witness: the characterization evaluated at the user agent `"bot"`. -/
theorem isBot_characterization_witness : isBot (jstr "bot") = true :=
  (isBot_characterization.1 (jstr "bot")).mpr
    ⟨jstr "bot", by simp, [], [], by decide⟩

/-- C7 counterexample: the returned path does not always put exactly one
slash between the base and `api`.  For the base `"a//"`, whose last
character is already a slash, `endpoint` returns `"a//api"`: there is no
decomposition `p ++ "/api"` in which `p` avoids ending in a further
slash. -/
theorem endpoint_counterexample :
    ¬ ∃ p : JsString, endpoint (jstr "a//") = p ++ jstr "/api"
        ∧ p.getLast? ≠ some '/' := by
  rintro ⟨p, hp, hlast⟩
  have h1 : endpoint (jstr "a//") = ['a', '/'] ++ jstr "/api" := by decide
  have h2 : p ++ jstr "/api" = ['a', '/'] ++ jstr "/api" := by rw [← hp, h1]
  have h3 : p = ['a', '/'] := List.append_cancel_right h2
  rw [h3] at hlast
  exact hlast (by decide)

/-- C7 amended: `endpoint s` appends `"/api"` to the base with at most its
final slash removed — the slash-normalization inspects only the last
character, so a base ending in several slashes keeps the extra ones.  In
particular both example bases map to `"https://t.example/api"`. -/
theorem endpoint_appends_api :
    (∀ s : JsString,
      endpoint s = (if s.getLast? = some '/' then s.dropLast else s) ++ jstr "/api")
    ∧ endpoint (jstr "https://t.example/") = jstr "https://t.example/api"
    ∧ endpoint (jstr "https://t.example") = jstr "https://t.example/api" := by
  refine ⟨fun s => ?_, by decide, by decide⟩
  have hsl : ['/'] ++ jstr "api" = jstr "/api" := by decide
  by_cases h : s.getLast? = some '/'
  · have hd : s.dropLast ++ ['/'] = s := List.dropLast_append_getLast? '/' h
    rw [if_pos h]
    calc endpoint s = s ++ jstr "api" := by simp [endpoint, h]
      _ = (s.dropLast ++ ['/']) ++ jstr "api" := by rw [hd]
      _ = s.dropLast ++ jstr "/api" := by rw [List.append_assoc, hsl]
  · rw [if_neg h]
    calc endpoint s = (s ++ ['/']) ++ jstr "api" := by simp [endpoint, h]
      _ = s ++ jstr "/api" := by rw [List.append_assoc, hsl]

/-- C4: every request carries credentials, and for every exchange a non-200
status, an unparseable body, or a parsed body with a non-null `errors`
member (reporting the first error's message) each make the handler throw an
unrecovered error, in which case the completion callback `next` never runs;
`next` runs exactly on the remaining responses. -/
theorem send_unrecovered_errors (url : JsString) (body : GraphQLBody)
    (resp : XhrResponse) :
    (sendRequest url body).withCredentials = true
    ∧ (resp.status ≠ 200 →
        sendOnload resp = .error (.badStatus resp.status) ∧ sendNextCalls resp = [])
    ∧ (resp.status = 200 → resp.text = .unparseable →
        sendOnload resp = .error .parseFailure ∧ sendNextCalls resp = [])
    ∧ (∀ json e es, resp.status = 200 → resp.text = .parsed json →
        json.errors = some (e :: es) →
        sendOnload resp = .error (.serverError (some e.message))
          ∧ sendNextCalls resp = [])
    ∧ (∀ json, resp.status = 200 → resp.text = .parsed json → json.errors = none →
        sendOnload resp = .ok json ∧ sendNextCalls resp = [json]) := by
  refine ⟨rfl, ?_, ?_, ?_, ?_⟩
  · intro h; simp [sendNextCalls, sendOnload, h]
  · intro h200 ht; simp [sendNextCalls, sendOnload, h200, ht]
  · intro json e es h200 ht he; simp [sendNextCalls, sendOnload, h200, ht, he]
  · intro json h200 ht he; simp [sendNextCalls, sendOnload, h200, ht, he]

/-- C4 witness: a 500 status with an unparseable body throws the status
error and never runs `next`; the request carries credentials. -/
theorem send_unrecovered_errors_witness :
    (sendRequest (jstr "https://t.example/api") (updateRecordBody (jstr "r1"))).withCredentials
        = true
    ∧ sendOnload { status := 500, text := .unparseable } = .error (.badStatus 500)
    ∧ sendNextCalls { status := 500, text := .unparseable } = [] := by
  have h := send_unrecovered_errors (jstr "https://t.example/api")
    (updateRecordBody (jstr "r1")) { status := 500, text := .unparseable }
  exact ⟨h.1, (h.2.1 (by decide)).1, (h.2.1 (by decide)).2⟩

/-- C9: validation defaults `detailed` to false and `ignoreLocalhost` to
true; each field is defaulted exactly when unset (`detailed` is true only
for an explicit `true`, `ignoreLocalhost` is false only for an explicit
`false`), and the result is a fresh immutable value. -/
theorem validate_defaults :
    validate {} = { detailed := false, ignoreLocalhost := true }
    ∧ ∀ opts : Options,
        (opts.detailed = none → (validate opts).detailed = false)
        ∧ (opts.ignoreLocalhost = none → (validate opts).ignoreLocalhost = true)
        ∧ ((validate opts).detailed = true ↔ opts.detailed = some true)
        ∧ ((validate opts).ignoreLocalhost = false ↔ opts.ignoreLocalhost = some false) := by
  refine ⟨rfl, fun opts => ⟨?_, ?_, ?_, ?_⟩⟩
  · intro h; simp [validate, h]
  · intro h; simp [validate, h]
  · simp [validate]
  · simp [validate]

/-- C9 witness: the defaults evaluated on the empty options object. -/
theorem validate_defaults_witness :
    (validate {}).detailed = false ∧ (validate {}).ignoreLocalhost = true :=
  ⟨(validate_defaults.2 {}).1 rfl, (validate_defaults.2 {}).2.1 rfl⟩

/-!
## Claim theorems: the record lifecycle manager
-/

/-- C1: for a session started by `_record`, if `stop()` runs before the
first interval tick, no refresh request is ever dispatched; `stop()` is a
total, idempotent step, and the completion of an already-dispatched refresh
neither installs a timer nor dispatches anything. -/
theorem record_stop_prevents_refresh (opts : Config) (env : Env)
    (server domainId : JsString) (attrs : Attrs) (es₁ es₂ : List Event)
    (h : Event.tick ∉ es₁) :
    (∀ r ∈ (run server (recordInit opts env server domainId attrs)
        (es₁ ++ Event.stop :: es₂)).requests, r.isRefresh = false)
    ∧ (∀ s : SessionState,
        step server (step server s Event.stop) Event.stop = step server s Event.stop)
    ∧ (∀ s : SessionState,
        (step server s Event.updateResponse).timers = s.timers
        ∧ (step server s Event.updateResponse).requests = s.requests) := by
  refine ⟨?_, fun s => rfl, fun s => ?_⟩
  · intro r hr
    rw [run_append] at hr
    have hstop : (step server (run server (recordInit opts env server domainId attrs) es₁)
        Event.stop).isStopped = true := rfl
    rw [run] at hr
    rw [run_requests_of_stopped server es₂ _ hstop] at hr
    have hnt : (step server (run server (recordInit opts env server domainId attrs) es₁)
        Event.stop).requests
        = (run server (recordInit opts env server domainId attrs) es₁).requests := rfl
    rw [hnt, run_requests_of_no_tick server es₁ _ h] at hr
    revert hr
    simp only [recordInit]
    repeat' split
    · simp [SessionState.idle]
    · simp [SessionState.idle]
    · intro hr
      simp only [List.mem_singleton] at hr
      subst hr
      rfl
  · constructor
    · simp only [step]
      (repeat' split) <;> simp_all
    · simp only [step]
      (repeat' split) <;> simp_all

/-- C1 witness: a session on an eligible host whose creation completes,
with `stop()` called before the first tick; the tick and a (vacuous)
refresh completion afterwards dispatch nothing. -/
theorem record_stop_prevents_refresh_witness :
    ((run (jstr "https://t.example")
        (recordInit { detailed := false, ignoreLocalhost := true }
          { hostname := jstr "example.com", userAgent := jstr "Mozilla/5.0" }
          (jstr "https://t.example") (jstr "d1") [])
        ([Event.createResponse (jstr "abc123")]
          ++ Event.stop :: [Event.tick, Event.updateResponse])).requests.all
      fun r => !r.isRefresh) = true := by
  have h := (record_stop_prevents_refresh
      { detailed := false, ignoreLocalhost := true }
      { hostname := jstr "example.com", userAgent := jstr "Mozilla/5.0" }
      (jstr "https://t.example") (jstr "d1") [] [Event.createResponse (jstr "abc123")]
      [Event.tick, Event.updateResponse] (by decide)).1
  rw [List.all_eq_true]
  intro r hr
  simp [h r hr]

/-- C2: when `ignoreLocalhost` is on and the host is local, or the agent is
automated, neither entry point ever performs any transport call: along
every execution the session makes no request, installs no timer, invokes no
callback, and carries exactly the one diagnostic warning; the handle's
`stop()` only sets the flag (a no-op that cannot throw). -/
theorem ineligible_session_inert (opts : Config) (env : Env)
    (server domainId recordId : JsString) (attrs : Attrs) (es : List Event)
    (h : (opts.ignoreLocalhost = true ∧ isLocalhost env.hostname = true)
        ∨ isBot env.userAgent = true) :
    ((run server (recordInit opts env server domainId attrs) es).requests = []
      ∧ (run server (recordInit opts env server domainId attrs) es).timers = 0
      ∧ (run server (recordInit opts env server domainId attrs) es).onCreateCalls = []
      ∧ (run server (recordInit opts env server domainId attrs) es).onUpdateCalls = []
      ∧ ((run server (recordInit opts env server domainId attrs) es).warnings
            = [warnLocalhost]
          ∨ (run server (recordInit opts env server domainId attrs) es).warnings
            = [warnBot]))
    ∧ ((run server (updateRecordInit opts env recordId) es).requests = []
      ∧ (run server (updateRecordInit opts env recordId) es).timers = 0
      ∧ (run server (updateRecordInit opts env recordId) es).onCreateCalls = []
      ∧ (run server (updateRecordInit opts env recordId) es).onUpdateCalls = []
      ∧ ((run server (updateRecordInit opts env recordId) es).warnings = [warnLocalhost]
          ∨ (run server (updateRecordInit opts env recordId) es).warnings = [warnBot]))
    ∧ (∀ s : SessionState, step server s Event.stop = { s with isStopped := true }) := by
  have hcase :
      (recordInit opts env server domainId attrs
          = { SessionState.idle with warnings := [warnLocalhost] }
        ∨ recordInit opts env server domainId attrs
          = { SessionState.idle with warnings := [warnBot] })
      ∧ (updateRecordInit opts env recordId
          = { SessionState.idle with warnings := [warnLocalhost] }
        ∨ updateRecordInit opts env recordId
          = { SessionState.idle with warnings := [warnBot] }) := by
    by_cases hl : (opts.ignoreLocalhost && isLocalhost env.hostname) = true
    · constructor
      · left; simp [recordInit, hl]
      · left; simp [updateRecordInit, hl]
    · have hb : isBot env.userAgent = true := by
        rcases h with ⟨h₁, h₂⟩ | hb
        · exact absurd (by simp [h₁, h₂]) hl
        · exact hb
      constructor
      · right; simp [recordInit, hl, hb]
      · right; simp [updateRecordInit, hl, hb]
  obtain ⟨hrec, hupd⟩ := hcase
  refine ⟨?_, ?_, fun s => rfl⟩
  · rcases hrec with hrec | hrec <;>
      rw [hrec] <;>
      have hi := run_inert server es { SessionState.idle with warnings := [warnLocalhost] }
        rfl rfl rfl <;>
      have hi' := run_inert server es { SessionState.idle with warnings := [warnBot] }
        rfl rfl rfl <;>
      simp_all [SessionState.idle]
  · rcases hupd with hupd | hupd <;>
      rw [hupd] <;>
      have hi := run_inert server es { SessionState.idle with warnings := [warnLocalhost] }
        rfl rfl rfl <;>
      have hi' := run_inert server es { SessionState.idle with warnings := [warnBot] }
        rfl rfl rfl <;>
      simp_all [SessionState.idle]

/-- C2 witness: starting on hostname `localhost` with the default options:
zero transport calls and a warning over an execution that also calls
`stop()`. -/
theorem ineligible_session_inert_witness :
    (run (jstr "https://t.example")
        (recordInit { detailed := false, ignoreLocalhost := true }
          { hostname := jstr "localhost", userAgent := jstr "Mozilla/5.0" }
          (jstr "https://t.example") (jstr "d1") [])
        [Event.stop, Event.tick]).requests = []
    ∧ (run (jstr "https://t.example")
        (updateRecordInit { detailed := false, ignoreLocalhost := true }
          { hostname := jstr "localhost", userAgent := jstr "Mozilla/5.0" }
          (jstr "abc123"))
        [Event.stop, Event.tick]).requests = [] := by
  have h := ineligible_session_inert { detailed := false, ignoreLocalhost := true }
    { hostname := jstr "localhost", userAgent := jstr "Mozilla/5.0" }
    (jstr "https://t.example") (jstr "d1") (jstr "abc123") [] [Event.stop, Event.tick]
    (Or.inl ⟨rfl, by decide⟩)
  exact ⟨h.1.1, h.2.1.1⟩

/-- C3: when an eligible session's creation call answers with the sentinel
identifier `88888888-8888-8888-8888-888888888888`, the manager emits the
own-site diagnostic and stops there: along every such execution no timer is
ever installed, `onCreate` never runs, and no refresh activity happens. -/
theorem sentinel_never_starts (opts : Config) (env : Env)
    (server domainId : JsString) (attrs : Attrs) (es : List Event)
    (helig : (opts.ignoreLocalhost && isLocalhost env.hostname) = false)
    (hbot : isBot env.userAgent = false)
    (hfake : ∀ rid, Event.createResponse rid ∈ es → isFakeRecordId rid = true) :
    (run server (recordInit opts env server domainId attrs) es).timers = 0
    ∧ (run server (recordInit opts env server domainId attrs) es).onCreateCalls = []
    ∧ (run server (recordInit opts env server domainId attrs) es).onUpdateCalls = []
    ∧ (∀ r ∈ (run server (recordInit opts env server domainId attrs) es).requests,
        r.isRefresh = false)
    ∧ ((∃ rid, Event.createResponse rid ∈ es) →
        warnOwnSite ∈ (run server (recordInit opts env server domainId attrs) es).warnings) := by
  have hinit : recordInit opts env server domainId attrs
      = { SessionState.idle with
            pendingCreate := true
            requests := [sendRequest (endpoint server) (createRecordBody domainId attrs)] } := by
    simp [recordInit, helig, hbot]
  rw [hinit]
  have hf := run_fake server es
    { SessionState.idle with
        pendingCreate := true
        requests := [sendRequest (endpoint server) (createRecordBody domainId attrs)] }
    hfake rfl rfl rfl
  obtain ⟨f₁, f₂, f₃, f₄, f₅, f₆⟩ := hf
  refine ⟨f₁, by simpa [SessionState.idle] using f₄, by simpa [SessionState.idle] using f₅,
    ?_, ?_⟩
  · intro r hr
    rw [f₆] at hr
    simp only [SessionState.idle, List.mem_singleton] at hr
    subst hr
    rfl
  · intro hex
    exact run_ownsite_warn server es _ rfl hfake hex

/-- C3 witness: an eligible session whose creation response is the sentinel
identifier installs no timer and records the own-site warning. -/
theorem sentinel_never_starts_witness :
    (run (jstr "https://t.example")
        (recordInit { detailed := false, ignoreLocalhost := true }
          { hostname := jstr "example.com", userAgent := jstr "Mozilla/5.0" }
          (jstr "https://t.example") (jstr "d1") [])
        [Event.createResponse (jstr "88888888-8888-8888-8888-888888888888")]).timers = 0
    ∧ warnOwnSite ∈ (run (jstr "https://t.example")
        (recordInit { detailed := false, ignoreLocalhost := true }
          { hostname := jstr "example.com", userAgent := jstr "Mozilla/5.0" }
          (jstr "https://t.example") (jstr "d1") [])
        [Event.createResponse (jstr "88888888-8888-8888-8888-888888888888")]).warnings := by
  have h := sentinel_never_starts { detailed := false, ignoreLocalhost := true }
    { hostname := jstr "example.com", userAgent := jstr "Mozilla/5.0" }
    (jstr "https://t.example") (jstr "d1") []
    [Event.createResponse (jstr "88888888-8888-8888-8888-888888888888")]
    (by decide) (by decide)
    (by
      intro rid hrid
      simp only [List.mem_singleton, Event.createResponse.injEq] at hrid
      rw [hrid]
      decide)
  exact ⟨h.1, h.2.2.2.2 ⟨jstr "88888888-8888-8888-8888-888888888888", by simp⟩⟩

/-- C8: along every execution of either entry point at most one interval is
live at a time; a session that fails eligibility (or, for `_updateRecord`,
is handed the sentinel, or, for `_record`, receives it from creation) never
installs one, and `stop()` only sets the cancellation flag. -/
theorem heartbeat_timer_invariant :
    (∀ (opts : Config) (env : Env) (server domainId : JsString) (attrs : Attrs)
        (es : List Event),
      (run server (recordInit opts env server domainId attrs) es).timers ≤ 1)
    ∧ (∀ (opts : Config) (env : Env) (server recordId : JsString) (es : List Event),
      (run server (updateRecordInit opts env recordId) es).timers ≤ 1)
    ∧ (∀ (opts : Config) (env : Env) (server domainId : JsString) (attrs : Attrs)
        (es : List Event),
      (opts.ignoreLocalhost = true ∧ isLocalhost env.hostname = true)
        ∨ isBot env.userAgent = true →
      (run server (recordInit opts env server domainId attrs) es).timers = 0)
    ∧ (∀ (opts : Config) (env : Env) (server recordId : JsString) (es : List Event),
      (opts.ignoreLocalhost = true ∧ isLocalhost env.hostname = true)
        ∨ isBot env.userAgent = true ∨ isFakeRecordId recordId = true →
      (run server (updateRecordInit opts env recordId) es).timers = 0)
    ∧ (∀ (opts : Config) (env : Env) (server domainId : JsString) (attrs : Attrs)
        (es : List Event),
      (∀ rid, Event.createResponse rid ∈ es → isFakeRecordId rid = true) →
      (run server (recordInit opts env server domainId attrs) es).timers = 0)
    ∧ (∀ (server : JsString) (s : SessionState),
      step server s Event.stop = { s with isStopped := true }) := by
  refine ⟨?_, ?_, ?_, ?_, ?_, fun server s => rfl⟩
  · intro opts env server domainId attrs es
    refine (run_timers_le server es _ ?_ ?_).1 <;>
      simp only [recordInit] <;> (repeat' split) <;> simp [SessionState.idle]
  · intro opts env server recordId es
    refine (run_timers_le server es _ ?_ ?_).1 <;>
      simp only [updateRecordInit] <;> (repeat' split) <;> simp [SessionState.idle]
  · intro opts env server domainId attrs es h
    have hinit : recordInit opts env server domainId attrs
        = { SessionState.idle with warnings := [warnLocalhost] }
      ∨ recordInit opts env server domainId attrs
        = { SessionState.idle with warnings := [warnBot] } := by
      by_cases hl : (opts.ignoreLocalhost && isLocalhost env.hostname) = true
      · left; simp [recordInit, hl]
      · have hb : isBot env.userAgent = true := by
          rcases h with ⟨h₁, h₂⟩ | hb
          · exact absurd (by simp [h₁, h₂]) hl
          · exact hb
        right; simp [recordInit, hl, hb]
    rcases hinit with hinit | hinit <;> rw [hinit] <;>
      exact (run_inert server es _ rfl rfl rfl).2.2.2.2.1
  · intro opts env server recordId es h
    have hinit : updateRecordInit opts env recordId
        = { SessionState.idle with warnings := [warnLocalhost] }
      ∨ updateRecordInit opts env recordId
        = { SessionState.idle with warnings := [warnBot] }
      ∨ updateRecordInit opts env recordId
        = { SessionState.idle with warnings := [warnOwnSite] } := by
      by_cases hl : (opts.ignoreLocalhost && isLocalhost env.hostname) = true
      · left; simp [updateRecordInit, hl]
      · by_cases hb : isBot env.userAgent = true
        · right; left; simp [updateRecordInit, hl, hb]
        · have hfk : isFakeRecordId recordId = true := by
            rcases h with ⟨h₁, h₂⟩ | hb' | hfk
            · exact absurd (by simp [h₁, h₂]) hl
            · exact absurd hb' hb
            · exact hfk
          right; right
          simp [updateRecordInit, hl, hb, hfk]
    rcases hinit with hinit | hinit | hinit <;> rw [hinit] <;>
      exact (run_inert server es _ rfl rfl rfl).2.2.2.2.1
  · intro opts env server domainId attrs es hfake
    have h0 : (recordInit opts env server domainId attrs).timers = 0 := by
      simp only [recordInit]
      (repeat' split) <;> simp [SessionState.idle]
    have h1 : (recordInit opts env server domainId attrs).inFlight = 0 := by
      simp only [recordInit]
      (repeat' split) <;> simp [SessionState.idle]
    have h2 : (recordInit opts env server domainId attrs).recordId = none := by
      simp only [recordInit]
      (repeat' split) <;> simp [SessionState.idle]
    exact (run_fake server es _ hfake h0 h1 h2).1

/-- C8 witness: the bound evaluated on an eligible run that installs the
timer, and the never-started conclusions on a localhost run and a sentinel
resume. -/
theorem heartbeat_timer_invariant_witness :
    (run (jstr "https://t.example")
        (recordInit { detailed := false, ignoreLocalhost := true }
          { hostname := jstr "example.com", userAgent := jstr "Mozilla/5.0" }
          (jstr "https://t.example") (jstr "d1") [])
        [Event.createResponse (jstr "abc123")]).timers ≤ 1
    ∧ (run (jstr "https://t.example")
        (recordInit { detailed := false, ignoreLocalhost := true }
          { hostname := jstr "localhost", userAgent := jstr "Mozilla/5.0" }
          (jstr "https://t.example") (jstr "d1") [])
        [Event.createResponse (jstr "abc123")]).timers = 0
    ∧ (run (jstr "https://t.example")
        (updateRecordInit { detailed := false, ignoreLocalhost := true }
          { hostname := jstr "example.com", userAgent := jstr "Mozilla/5.0" }
          (jstr "88888888-8888-8888-8888-888888888888"))
        [Event.tick]).timers = 0 := by
  refine ⟨heartbeat_timer_invariant.1 _ _ _ _ _ _, ?_, ?_⟩
  · exact heartbeat_timer_invariant.2.2.1 _ _ _ _ _ _ (Or.inl ⟨rfl, by decide⟩)
  · exact heartbeat_timer_invariant.2.2.2.1 _ _ _ _ _ (Or.inr (Or.inr (by decide)))

/-- C10: the continuation of a refresh round trip invokes `onUpdate` with
the held identifier unconditionally — it never re-reads the cancellation
flag — and there is an execution in which `stop()` runs while a refresh
dispatched earlier is in flight and its completion still invokes
`onUpdate` afterwards. -/
theorem refresh_completion_unconditional :
    (∀ (server : JsString) (s : SessionState) (rid : JsString),
      s.inFlight ≠ 0 → s.recordId = some rid →
      (step server s Event.updateResponse).onUpdateCalls = s.onUpdateCalls ++ [rid]
      ∧ (step server s Event.updateResponse).isStopped = s.isStopped)
    ∧ ((run (jstr "https://t.example")
          (recordInit { detailed := false, ignoreLocalhost := true }
            { hostname := jstr "example.com", userAgent := jstr "Mozilla/5.0" }
            (jstr "https://t.example") (jstr "d1") [])
          [Event.createResponse (jstr "abc123"), Event.tick, Event.stop,
            Event.updateResponse]).isStopped = true
      ∧ (run (jstr "https://t.example")
          (recordInit { detailed := false, ignoreLocalhost := true }
            { hostname := jstr "example.com", userAgent := jstr "Mozilla/5.0" }
            (jstr "https://t.example") (jstr "d1") [])
          [Event.createResponse (jstr "abc123"), Event.tick, Event.stop,
            Event.updateResponse]).onUpdateCalls = [jstr "abc123"]) := by
  refine ⟨?_, by decide, by decide⟩
  intro server s rid h1 h2
  simp only [step, h2]
  rw [if_neg h1]
  exact ⟨rfl, rfl⟩

/-- C10 witness: a stopped session with one refresh in flight still records
the `onUpdate` invocation when the round trip completes. -/
theorem refresh_completion_unconditional_witness :
    (step (jstr "https://t.example")
        { SessionState.idle with
            isStopped := true, inFlight := 1, recordId := some (jstr "abc123") }
        Event.updateResponse).onUpdateCalls = [jstr "abc123"]
    ∧ (step (jstr "https://t.example")
        { SessionState.idle with
            isStopped := true, inFlight := 1, recordId := some (jstr "abc123") }
        Event.updateResponse).isStopped = true := by
  have h := refresh_completion_unconditional.1 (jstr "https://t.example")
    { SessionState.idle with
        isStopped := true, inFlight := 1, recordId := some (jstr "abc123") }
    (jstr "abc123") (by decide) rfl
  exact ⟨by simpa [SessionState.idle] using h.1, by simpa [SessionState.idle] using h.2⟩
